import Mathlib

/-!
Verification of the `node-benchmark` micro-benchmark runner (`src/index.js`)
against its natural-language specification.

The embedding models JavaScript numbers that can arise in the benchmark core
as exact rationals extended with `NaN` and the two infinities (the code never
depends on floating-point rounding for the claims under study, but it does
divide by zero and compare against `Infinity`, so those values are modelled
faithfully).  Wall-clock readings (`Date.now()`), abort-flag observations and
exceptions thrown by caller-supplied functions are supplied by explicit
environment records, turning the stateful, asynchronous `run()` method into a
pure function from an environment to a result plus an event trace.
-/

namespace NodeBenchmark

/-- A JavaScript number as it can appear in the benchmark core: an exact
finite value, `NaN`, `Infinity` or `-Infinity`. -/
inductive JsNum where
  | num : ℚ → JsNum
  | nan : JsNum
  | inf : JsNum
  | ninf : JsNum
deriving DecidableEq, Repr

/-- JavaScript `+` on numbers. -/
def jsAdd : JsNum → JsNum → JsNum
  | .nan, _ => .nan
  | _, .nan => .nan
  | .num a, .num b => .num (a + b)
  | .inf, .ninf => .nan
  | .ninf, .inf => .nan
  | .inf, _ => .inf
  | _, .inf => .inf
  | .ninf, _ => .ninf
  | _, .ninf => .ninf

/-- JavaScript unary minus on numbers. -/
def jsNeg : JsNum → JsNum
  | .num a => .num (-a)
  | .nan => .nan
  | .inf => .ninf
  | .ninf => .inf

/-- JavaScript `-` on numbers. -/
def jsSub (a b : JsNum) : JsNum := jsAdd a (jsNeg b)

/-- JavaScript `*` on numbers. -/
def jsMul : JsNum → JsNum → JsNum
  | .nan, _ => .nan
  | _, .nan => .nan
  | .num a, .num b => .num (a * b)
  | .num a, .inf => if a = 0 then .nan else if 0 < a then .inf else .ninf
  | .inf, .num a => if a = 0 then .nan else if 0 < a then .inf else .ninf
  | .num a, .ninf => if a = 0 then .nan else if 0 < a then .ninf else .inf
  | .ninf, .num a => if a = 0 then .nan else if 0 < a then .ninf else .inf
  | .inf, .inf => .inf
  | .inf, .ninf => .ninf
  | .ninf, .inf => .ninf
  | .ninf, .ninf => .inf

/-- JavaScript `/` on numbers (signed zeroes are collapsed to `0`). -/
def jsDiv : JsNum → JsNum → JsNum
  | .nan, _ => .nan
  | _, .nan => .nan
  | .num a, .num b =>
      if b = 0 then (if a = 0 then .nan else if 0 < a then .inf else .ninf)
      else .num (a / b)
  | .num _, .inf => .num 0
  | .num _, .ninf => .num 0
  | .inf, .num b => if 0 ≤ b then .inf else .ninf
  | .ninf, .num b => if 0 ≤ b then .ninf else .inf
  | .inf, .inf => .nan
  | .inf, .ninf => .nan
  | .ninf, .inf => .nan
  | .ninf, .ninf => .nan

/-- JavaScript `<=` comparison on numbers (`false` whenever `NaN` is
involved). -/
def jsLe : JsNum → JsNum → Bool
  | .nan, _ => false
  | _, .nan => false
  | .num a, .num b => decide (a ≤ b)
  | .ninf, _ => true
  | _, .inf => true
  | .inf, _ => false
  | _, .ninf => false

/-- JavaScript `Math.pow(x, 2)`. -/
def jsPow2 (x : JsNum) : JsNum := jsMul x x

/-- A JavaScript number that may be irrational (output of `Math.sqrt`),
modelled over the exact reals. -/
inductive JsNumR where
  | num : ℝ → JsNumR
  | nan : JsNumR
  | inf : JsNumR
  | ninf : JsNumR

/-- Embedding of finite-or-special numbers into the real-valued ones. -/
def JsNum.toR : JsNum → JsNumR
  | .num q => .num (q : ℝ)
  | .nan => .nan
  | .inf => .inf
  | .ninf => .ninf

/-- JavaScript `Math.sqrt`. -/
noncomputable def jsSqrt : JsNum → JsNumR
  | .num q => if q < 0 then .nan else .num (Real.sqrt (q : ℝ))
  | .nan => .nan
  | .inf => .inf
  | .ninf => .nan

/-- JavaScript `*` on possibly-irrational numbers. -/
noncomputable def jsMulR : JsNumR → JsNumR → JsNumR
  | .nan, _ => .nan
  | _, .nan => .nan
  | .num a, .num b => .num (a * b)
  | .num a, .inf => if a = 0 then .nan else if 0 < a then .inf else .ninf
  | .inf, .num a => if a = 0 then .nan else if 0 < a then .inf else .ninf
  | .num a, .ninf => if a = 0 then .nan else if 0 < a then .ninf else .inf
  | .ninf, .num a => if a = 0 then .nan else if 0 < a then .ninf else .inf
  | .inf, .inf => .inf
  | .inf, .ninf => .ninf
  | .ninf, .inf => .ninf
  | .ninf, .ninf => .inf

/-- One measured window (`{hits, duration}` as pushed at `index.js:179`).
`hits` is a counter, always a natural number; `duration` is `now - startTime`,
a difference of two clock readings. -/
structure Sample where
  hits : ℕ
  duration : ℚ
deriving DecidableEq, Repr

/-- The `totals` object of a `BenchmarkResults` record (`index.js:236`). -/
structure Totals where
  runs : ℕ
  avg : JsNum
  stdDev : JsNumR

/-- Aggregation of a unit's (post-warmup-shift) samples into `totals`,
translated from `index.js:217-242`:
`runs = unit.samples.length`,
`avg = unit.samples.reduce((s,v) => s + v.hits, 0) / runs`,
`stdDev = Math.sqrt(unit.samples.map(v => Math.pow(v.hits - avg, 2))
                    .reduce((s,v) => s + v, 0) / runs)`,
then `toPerSec(count) = count * (1000 / sampleRunTime)` applied to both. -/
noncomputable def totalsOf (sampleRunTime : JsNum) (samples : List Sample) : Totals :=
  let runs := samples.length
  let avg := jsDiv (samples.foldl (fun s v => jsAdd s (.num (v.hits : ℚ))) (.num 0))
      (.num (runs : ℚ))
  let stdDev := jsSqrt (jsDiv
      ((samples.map (fun v => jsPow2 (jsSub (.num (v.hits : ℚ)) avg))).foldl jsAdd (.num 0))
      (.num (runs : ℚ)))
  let toPerSec := fun (count : JsNum) => jsMul count (jsDiv (.num 1000) sampleRunTime)
  { runs := runs
    avg := toPerSec avg
    stdDev := jsMulR stdDev (JsNum.toR (jsDiv (.num 1000) sampleRunTime)) }

/-- Specification-side arithmetic mean of the `hits` fields. -/
def meanHits (samples : List Sample) : ℚ :=
  (samples.map (fun v => (v.hits : ℚ))).sum / samples.length

/-- Specification-side population variance of the `hits` fields (summed
squared deviations divided by the number of samples, not one less). -/
def popVarHits (samples : List Sample) : ℚ :=
  (samples.map (fun v => ((v.hits : ℚ) - meanHits samples) ^ 2)).sum / samples.length

/-- The runner's configuration state (`this._p` without the unit list,
`index.js:25-31`).  `runsPerUnit` is set through `setRunsPerUnit(n : number)`;
we restrict attention to integer run counts. -/
structure Config where
  warmupTime : ℚ := 50
  maxUnitTime : ℚ := 5000
  runsPerUnit : ℤ := 10
deriving DecidableEq, Repr

/-- `const sampleRunTime = maxUnitTime / p.runsPerUnit;` (`index.js:151`) —
note the divisor is the raw `p.runsPerUnit`, not the clamped local. -/
def sampleRunTime (cfg : Config) : JsNum :=
  jsDiv (.num cfg.maxUnitTime) (.num (cfg.runsPerUnit : ℚ))

/-- `const runsPerUnit = Math.max(p.runsPerUnit, 1);` (`index.js:150`). -/
def runsPerUnitClamped (cfg : Config) : ℤ := max cfg.runsPerUnit 1

/-- `const hasWarmupRun = p.warmupTime > 0;` (`index.js:153`). -/
def hasWarmupRun (cfg : Config) : Bool := decide (0 < cfg.warmupTime)

/-- `let actualRunCount = hasWarmupRun ? runsPerUnit + 1 : runsPerUnit;`
(`index.js:154`), as the number of iterations of the `for` loop at
`index.js:197` (the clamped count is at least 1, so `toNat` is lossless). -/
def actualRunCount (cfg : Config) : ℕ :=
  (runsPerUnitClamped cfg).toNat + (if hasWarmupRun cfg then 1 else 0)

/-- Modelled from the spec's words only, for comparison with the code:
the sample window duration with the divisor clamped to at least 1. -/
def sampleRunTimeSpec (cfg : Config) : JsNum :=
  jsDiv (.num cfg.maxUnitTime) (.num ((max cfg.runsPerUnit 1 : ℤ) : ℚ))

/-- A stored unit descriptor (`index.js:45-50`).  Caller-supplied functions
are identified by opaque numeric tags; `none` stands for a `null` or
`undefined` field. -/
structure UnitDesc where
  name : String
  prepare : Option ℕ
  unit : Option ℕ
  teardown : Option ℕ
deriving DecidableEq, Repr

/-- The second argument of `add`: either a JavaScript function value
(`typeof options === 'function'`, with whatever `prepare`/`unit`/`teardown`
properties happen to sit on the function object itself), or a plain options
object.  Both are truthy. -/
inductive AddArg where
  | func (self : ℕ) (prepareProp unitProp teardownProp : Option ℕ)
  | obj (prepareProp unitProp teardownProp : Option ℕ)
deriving DecidableEq, Repr

/-- `add(name, options)` (`index.js:42-53`): pushes
`{name, prepare: options ? options.prepare : null,
unit: typeof options === 'function' ? options : options.unit,
teardown: options ? options.teardown : null}`. -/
def add (units : List UnitDesc) (name : String) (arg : AddArg) : List UnitDesc :=
  match arg with
  | .func self pp _ tp =>
      units ++ [{ name := name, prepare := pp, unit := some self, teardown := tp }]
  | .obj pp up tp =>
      units ++ [{ name := name, prepare := pp, unit := up, teardown := tp }]

/-- `abortError(message)` (`index.js:7-11`): a JS `Error` whose `name` field
is overwritten with `'AbortError'`. -/
structure JsError where
  name : String
  message : String
deriving DecidableEq, Repr

/-- Translation of the `abortError` constructor. -/
def abortError (message : String) : JsError :=
  { name := "AbortError", message := message }

/-- A rejection escaping `run()`: either an error the core itself raised, or
an exception propagated from a caller-supplied `prepare`/`unit`/`teardown`
function (including the async-detection probe call). -/
inductive RunError where
  | core (e : JsError)
  | user (e : String)
deriving DecidableEq, Repr

/-- The exact error thrown at `index.js:147`, `index.js:201` and
`index.js:226`. -/
def abortThrow : RunError := .core (abortError "abort() was called")

/-- One iteration of the inner sampling loop (`index.js:167-187`) as seen
from the environment: the abort flag observed at the loop head, whether the
unit-function call (or the `await` of its result) threw, and the `Date.now()`
reading taken after the call. -/
structure WinStep where
  ab : Bool
  unitErr : Option String
  now : ℚ
deriving DecidableEq, Repr

/-- Outcome of one sample window. -/
inductive WinOut where
  | closed (s : Sample)
  | abortedEarly
  | errored (e : String)
  | incomplete
deriving DecidableEq, Repr

/-- The inner `while (p.aborted !== true)` loop of `doRun`
(`index.js:167-187`): check the flag, run the unit function, increment
`hits`, read the clock, and close the window once `now >= endTime`.
An exhausted environment list models a window that never closes. -/
def windowLoop (endTime : JsNum) (startTime : ℚ) (hits : ℕ) : List WinStep → WinOut
  | [] => .incomplete
  | step :: rest =>
      if step.ab then .abortedEarly
      else
        match step.unitErr with
        | some e => .errored e
        | none =>
            if jsLe endTime (.num step.now) then
              .closed { hits := hits + 1, duration := step.now - startTime }
            else windowLoop endTime startTime (hits + 1) rest

/-- `doRun` (`index.js:162-188`): read `startTime`, set
`endTime = startTime + sampleRunTime`, then run the inner loop with
`hits = 0`. -/
def runWindow (srt : JsNum) (start : ℚ) (steps : List WinStep) : WinOut :=
  windowLoop (jsAdd (.num start) srt) start 0 steps

/-- Environment of one iteration of the outer `for (let run = 0; ...)` loop
(`index.js:197-208`): the abort flag observed at `index.js:200`, the window's
`startTime` reading, and the inner-loop steps. -/
structure OuterEnv where
  check : Bool
  start : ℚ
  steps : List WinStep
deriving DecidableEq, Repr

/-- Internal milestones of `run()`, recorded in execution order.
`checkpoint b` is an observation of the abort flag at one of the `throw`
sites (`index.js:146`, `index.js:200`, `index.js:225`); `aggregated` marks
the statistics computation (`index.js:217-223`); `appended` the push onto
`unitResults` (`index.js:247`); `cycled` the `onCycle` invocation
(`index.js:250`). -/
inductive Ev where
  | checkpoint (b : Bool)
  | aggregated
  | appended
  | cycled
deriving DecidableEq, Repr

/-- The outer sampling loop of one unit (`index.js:197-208`): `count` runs,
each preceded by an abort check, each executing one window.  Returns the
chronological list of recorded samples (`unit.samples`), or the thrown
error, or `none` for divergence, together with the checkpoint trace. -/
def samplePhase (srt : JsNum) :
    ℕ → List OuterEnv → Option (Except RunError (List Sample)) × List Ev
  | 0, _ => (some (.ok []), [])
  | _ + 1, [] => (none, [])
  | n + 1, o :: os =>
      if o.check then (some (.error abortThrow), [.checkpoint true])
      else
        match runWindow srt o.start o.steps with
        | .closed s =>
            let r := samplePhase srt n os
            (r.1.map (Except.map (fun rec => s :: rec)), .checkpoint false :: r.2)
        | .abortedEarly =>
            let r := samplePhase srt n os
            (r.1, .checkpoint false :: r.2)
        | .errored e => (some (.error (.user e)), [.checkpoint false])
        | .incomplete => (none, [.checkpoint false])

/-- The warmup shift (`index.js:213-215`): when warmup is enabled and at
least one sample was recorded, `unit.warmup = unit.samples.shift()`.
Returns `(warmup, samples)`. -/
def shiftWarmup (hasWarmup : Bool) (rec : List Sample) : Option Sample × List Sample :=
  if hasWarmup ∧ rec ≠ [] then (rec.head?, rec.tail) else (none, rec)

/-- The public result object for one unit (`index.js:234-246`). -/
structure UnitResult where
  name : String
  totals : Totals
  samples : List Sample
  warmup : Option Sample

/-- Environment of one unit's pass through the `run()` loop body:
abort-flag observations at `index.js:146` and `index.js:225`, whether
`prepare`, the async-detection probe call (`index.js:195`), or `teardown`
threw, and the outer-loop environments. -/
structure UnitEnv where
  preCheck : Bool
  prepareErr : Option String
  probeErr : Option String
  outers : List OuterEnv
  teardownErr : Option String
  postCheck : Bool
deriving DecidableEq, Repr

/-- `if (typeof unitPrepareFn === 'function') await unitPrepareFn();`
(`index.js:190-191`): an exception can only arise when `prepare` is
present. -/
def prepThrow (u : UnitDesc) (env : UnitEnv) : Option String :=
  if u.prepare.isSome then env.prepareErr else none

/-- `if (typeof unitTeardownFn === 'function') await unitTeardownFn();`
(`index.js:210-211`). -/
def tdThrow (u : UnitDesc) (env : UnitEnv) : Option String :=
  if u.teardown.isSome then env.teardownErr else none

/-- One unit's pass through the `run()` loop body (`index.js:145-250`):
pre-check, prepare, probe call, sampling, teardown, warmup shift,
aggregation, post-check, result construction, append and `onCycle`.
Returns the unit's outcome (`none` = divergence) and the event trace. -/
noncomputable def runUnit (cfg : Config) (u : UnitDesc) (env : UnitEnv) :
    Option (Except RunError UnitResult) × List Ev :=
  if env.preCheck then (some (.error abortThrow), [.checkpoint true])
  else
    match prepThrow u env with
    | some e => (some (.error (.user e)), [.checkpoint false])
    | none =>
        match env.probeErr with
        | some e => (some (.error (.user e)), [.checkpoint false])
        | none =>
            let ph := samplePhase (sampleRunTime cfg) (actualRunCount cfg) env.outers
            match ph.1 with
            | none => (none, .checkpoint false :: ph.2)
            | some (.error e) => (some (.error e), .checkpoint false :: ph.2)
            | some (.ok rec) =>
                match tdThrow u env with
                | some e => (some (.error (.user e)), .checkpoint false :: ph.2)
                | none =>
                    let sw := shiftWarmup (hasWarmupRun cfg) rec
                    let totals := totalsOf (sampleRunTime cfg) sw.2
                    if env.postCheck then
                      (some (.error abortThrow),
                        .checkpoint false :: ph.2 ++ [.aggregated, .checkpoint true])
                    else
                      (some (.ok { name := u.name, totals := totals,
                                   samples := sw.2, warmup := sw.1 }),
                        .checkpoint false :: ph.2 ++
                          [.aggregated, .checkpoint false, .appended, .cycled])

/-- `run(options)` (`index.js:137-254`): iterate the registered units in
order; on success return the accumulated `unitResults`.  The second
component is the chronological list of arguments passed to `onCycle`
(`index.js:250`); the third is the full event trace. -/
noncomputable def runBench (cfg : Config) :
    List UnitDesc → List UnitEnv →
    Option (Except RunError (List UnitResult)) × List UnitResult × List Ev
  | [], _ => (some (.ok []), [], [])
  | _ :: _, [] => (none, [], [])
  | u :: us, e :: es =>
      match runUnit cfg u e with
      | (none, tr) => (none, [], tr)
      | (some (.error err), tr) => (some (.error err), [], tr)
      | (some (.ok res), tr) =>
          match runBench cfg us es with
          | (none, cyc, tr2) => (none, res :: cyc, tr ++ tr2)
          | (some (.error err), cyc, tr2) => (some (.error err), res :: cyc, tr ++ tr2)
          | (some (.ok rest), cyc, tr2) => (some (.ok (res :: rest)), res :: cyc, tr ++ tr2)

/-- "No cancellation during the run", seen from one unit's sampling phase:
every abort-flag observation the outer and inner loops could make is
`false`. -/
def NoAbortOuters (outers : List OuterEnv) : Prop :=
  ∀ o ∈ outers, o.check = false ∧ ∀ x ∈ o.steps, x.ab = false

instance (outers : List OuterEnv) : Decidable (NoAbortOuters outers) := by
  unfold NoAbortOuters
  infer_instance

/-! ### Evaluation lemmas for the JavaScript number model -/

@[simp]
theorem jsAdd_num (a b : ℚ) : jsAdd (.num a) (.num b) = .num (a + b) := rfl

@[simp]
theorem jsMul_num (a b : ℚ) : jsMul (.num a) (.num b) = .num (a * b) := rfl

@[simp]
theorem jsLe_num (a b : ℚ) : jsLe (.num a) (.num b) = decide (a ≤ b) := rfl

theorem jsDiv_num (a : ℚ) {b : ℚ} (h : b ≠ 0) :
    jsDiv (.num a) (.num b) = .num (a / b) := by
  simp [jsDiv, h]

@[simp]
theorem jsMul_nan_left (x : JsNum) : jsMul .nan x = .nan := by
  cases x <;> rfl

@[simp]
theorem jsMulR_nan_left (x : JsNumR) : jsMulR .nan x = .nan := by
  cases x <;> rfl

@[simp]
theorem exceptMap_ok {ε α β : Type} (f : α → β) (a : α) :
    Except.map f (Except.ok a : Except ε α) = Except.ok (f a) := rfl

@[simp]
theorem exceptMap_error {ε α β : Type} (f : α → β) (e : ε) :
    Except.map f (Except.error e : Except ε α) = Except.error e := rfl

/-! ### C1: the sample window duration -/

/-- C1 counterexample: the claim states that for every configuration with
`runsPerUnit <= 0` the engine's `sampleRunTime` equals `maxUnitTime`.  At the
concrete configuration `maxUnitTime = 5000`, `runsPerUnit = -2` the code
(`index.js:151`) divides by the raw `p.runsPerUnit`, producing `-2500`, not
`5000`. -/
theorem c1_sampleRunTime_counterexample :
    (Config.mk 50 5000 (-2)).runsPerUnit ≤ 0 ∧
    sampleRunTime (Config.mk 50 5000 (-2)) = .num (-2500) ∧
    sampleRunTime (Config.mk 50 5000 (-2)) ≠ .num ((Config.mk 50 5000 (-2)).maxUnitTime) := by
  refine ⟨by decide, by norm_num [sampleRunTime, jsDiv], ?_⟩
  norm_num [sampleRunTime, jsDiv]

/-- C1 (amended): `sampleRunTime` is `maxUnitTime` divided by the raw,
unclamped `runsPerUnit`; the clamp to at least 1 applies only to the number
of sample windows.  Hence the claimed invariant
`sampleRunTime = maxUnitTime / max(runsPerUnit, 1)` holds exactly when
`runsPerUnit >= 1`, and for any nonzero `runsPerUnit` the window duration is
`maxUnitTime / runsPerUnit` with no clamping. -/
theorem c1_sampleRunTime_amended (cfg : Config) :
    (1 ≤ cfg.runsPerUnit → sampleRunTime cfg = sampleRunTimeSpec cfg) ∧
    (cfg.runsPerUnit ≠ 0 →
      sampleRunTime cfg = .num (cfg.maxUnitTime / (cfg.runsPerUnit : ℚ))) ∧
    (runsPerUnitClamped cfg = max cfg.runsPerUnit 1 ∧ 1 ≤ runsPerUnitClamped cfg) := by
  refine ⟨?_, ?_, rfl, le_max_right _ _⟩
  · intro h
    have : max cfg.runsPerUnit 1 = cfg.runsPerUnit := max_eq_left h
    simp [sampleRunTime, sampleRunTimeSpec, this]
  · intro h
    have hq : (cfg.runsPerUnit : ℚ) ≠ 0 := by exact_mod_cast h
    exact jsDiv_num _ hq

/-- C1 witness at the default configuration. -/
theorem c1_sampleRunTime_witness :
    (1 : ℤ) ≤ (Config.mk 50 5000 10).runsPerUnit ∧
    (Config.mk 50 5000 10).runsPerUnit ≠ 0 ∧
    sampleRunTime (Config.mk 50 5000 10) = sampleRunTimeSpec (Config.mk 50 5000 10) ∧
    sampleRunTime (Config.mk 50 5000 10) =
      .num ((Config.mk 50 5000 10).maxUnitTime / ((Config.mk 50 5000 10).runsPerUnit : ℚ)) :=
  ⟨by decide, by decide,
    (c1_sampleRunTime_amended (Config.mk 50 5000 10)).1 (by decide),
    (c1_sampleRunTime_amended (Config.mk 50 5000 10)).2.1 (by decide)⟩

/-! ### C2: `add` with a bare callable -/

/-- C2 counterexample: the claim states that registering `add(name, f)` with
a bare callable leaves `prepare`/`teardown` absent regardless of any
properties attached to `f`.  But `index.js:47-49` reads `options.prepare` and
`options.teardown` off the argument unconditionally, so a callable carrying a
`prepare` property (tag `1`) and a `teardown` property (tag `2`) is
registered with both set. -/
theorem c2_add_counterexample :
    add [] "u" (.func 0 (some 1) none (some 2)) =
      [{ name := "u", prepare := some 1, unit := some 0, teardown := some 2 }] ∧
    ((add [] "u" (.func 0 (some 1) none (some 2))).head?.map UnitDesc.prepare ≠
      some none) := by
  constructor
  · rfl
  · decide

/-- C2 (amended): for a callable second argument, the registered descriptor
has the callable itself as the unit function (any `unit` property on it is
ignored), and `prepare`/`teardown` are read from the callable's own
properties — so they are absent exactly when the callable carries no such
properties, as is the case for a plain function. -/
theorem c2_add_amended (units : List UnitDesc) (name : String) (self : ℕ)
    (up : Option ℕ) :
    add units name (.func self none up none) =
      units ++ [{ name := name, prepare := none, unit := some self, teardown := none }] :=
  rfl

/-! ### Window-loop invariants -/

/-- A window closed with sample `s` only via the `now >= endTime` branch, so
with a finite `endTime = startTime + q` the recorded duration satisfies
`q ≤ duration`. -/
theorem windowLoop_closed_duration (q st : ℚ) (h : ℕ) :
    ∀ (steps : List WinStep) (s : Sample),
      windowLoop (.num (st + q)) st h steps = .closed s → q ≤ s.duration := by
  intro steps
  induction steps generalizing h with
  | nil => intro s hs; simp [windowLoop] at hs
  | cons step rest ih =>
      intro s hs
      by_cases hab : step.ab
      · simp [windowLoop, hab] at hs
      · rcases herr : step.unitErr with - | e
        · by_cases hle : jsLe (.num (st + q)) (.num step.now) = true
          · simp [windowLoop, hab, herr, hle] at hs
            have hq : st + q ≤ step.now := by
              simpa using hle
            rw [← hs]
            simp only []
            linarith
          · simp only [windowLoop, hab, if_false, herr, hle] at hs
            exact ih (h + 1) s (by simpa [windowLoop, hab, herr, hle] using hs)
        · simp [windowLoop, hab, herr] at hs

/-- A closed window records at least `h + 1` hits, `h` being the incoming
counter. -/
theorem windowLoop_closed_hits (e : JsNum) (st : ℚ) :
    ∀ (steps : List WinStep) (h : ℕ) (s : Sample),
      windowLoop e st h steps = .closed s → h + 1 ≤ s.hits := by
  intro steps
  induction steps with
  | nil => intro h s hs; simp [windowLoop] at hs
  | cons step rest ih =>
      intro h s hs
      by_cases hab : step.ab
      · simp [windowLoop, hab] at hs
      · rcases herr : step.unitErr with - | e'
        · by_cases hle : jsLe e (.num step.now) = true
          · simp [windowLoop, hab, herr, hle] at hs
            rw [← hs]
          · have := ih (h + 1) s (by simpa [windowLoop, hab, herr, hle] using hs)
            omega
        · simp [windowLoop, hab, herr] at hs

/-- Every sample in a successful sampling phase came from a closed window
whose nominal duration was the engine's `sampleRunTime`. -/
theorem samplePhase_mem_closed (srt : JsNum) :
    ∀ (n : ℕ) (outers : List OuterEnv) (rec : List Sample),
      (samplePhase srt n outers).1 = some (.ok rec) →
      ∀ s ∈ rec, ∃ o : OuterEnv, runWindow srt o.start o.steps = .closed s := by
  intro n
  induction n with
  | zero =>
      intro outers rec h s hs
      simp [samplePhase] at h
      subst h
      simp at hs
  | succ n ih =>
      intro outers rec h s hs
      match outers with
      | [] => simp [samplePhase] at h
      | o :: os =>
          by_cases hc : o.check
          · simp [samplePhase, hc] at h
          · rcases hw : runWindow srt o.start o.steps with s' | - | e | -
            · rw [samplePhase] at h
              simp only [hc, if_false, hw] at h
              rcases hrec : (samplePhase srt n os).1 with - | r
              · rw [hrec] at h; simp at h
              · rw [hrec] at h
                rcases r with e | rec'
                · simp at h
                · simp at h
                  subst h
                  cases hs with
                  | head => exact ⟨o, hw⟩
                  | tail _ hmem => exact ih os rec' (by rw [hrec]) s hmem
            · rw [samplePhase] at h
              simp only [hc, if_false, hw] at h
              exact ih os rec h s hs
            · rw [samplePhase] at h
              simp only [hc, if_false, hw] at h
              simp at h
            · rw [samplePhase] at h
              simp only [hc, if_false, hw] at h
              simp at h

/-- C2 witness: a plain callable with no attached properties registers with
absent prepare/teardown and itself as the unit function. -/
theorem c2_add_amended_witness :
    add [] "w2" (.func 7 none (some 9) none) =
      [] ++ [{ name := "w2", prepare := none, unit := some 7, teardown := none }] :=
  c2_add_amended [] "w2" 7 (some 9)

/-! ### C5: recorded durations reach the nominal window duration -/

/-- C5: every sample recorded by the sampling engine (warmup or regular) has
`duration >= sampleRunTime = maxUnitTime / runsPerUnit`: a window is closed
only once the elapsed time since its start reaches the nominal window
duration (stated for any configuration whose `runsPerUnit` is nonzero, so
that the quotient is a number). -/
theorem c5_duration_ge_sampleRunTime (cfg : Config) (n : ℕ) (outers : List OuterEnv)
    (rec : List Sample) (s : Sample)
    (hr : cfg.runsPerUnit ≠ 0)
    (hph : (samplePhase (sampleRunTime cfg) n outers).1 = some (.ok rec))
    (hs : s ∈ rec) :
    cfg.maxUnitTime / (cfg.runsPerUnit : ℚ) ≤ s.duration := by
  have hq : (cfg.runsPerUnit : ℚ) ≠ 0 := by exact_mod_cast hr
  have hsrt : sampleRunTime cfg = .num (cfg.maxUnitTime / (cfg.runsPerUnit : ℚ)) :=
    jsDiv_num _ hq
  obtain ⟨o, ho⟩ := samplePhase_mem_closed (sampleRunTime cfg) n outers rec hph s hs
  rw [hsrt] at ho
  exact windowLoop_closed_duration _ o.start 0 o.steps s (by simpa [runWindow] using ho)

/-- C5 witness: the default configuration, one window starting at time `0`
and closing at time `500 = 5000 / 10`. -/
theorem c5_duration_witness :
    (Config.mk 50 5000 10).runsPerUnit ≠ 0 ∧
    (samplePhase (sampleRunTime (Config.mk 50 5000 10)) 1
        [⟨false, 0, [⟨false, none, 500⟩]⟩]).1 = some (.ok [⟨1, 500⟩]) ∧
    (⟨1, 500⟩ : Sample) ∈ [(⟨1, 500⟩ : Sample)] ∧
    (Config.mk 50 5000 10).maxUnitTime / ((Config.mk 50 5000 10).runsPerUnit : ℚ) ≤
      (⟨1, 500⟩ : Sample).duration := by
  have h1 : (samplePhase (sampleRunTime (Config.mk 50 5000 10)) 1
      [⟨false, 0, [⟨false, none, 500⟩]⟩]).1 = some (.ok [⟨1, 500⟩]) := by
    norm_num [samplePhase, runWindow, windowLoop, sampleRunTime, jsDiv, jsAdd, jsLe]
  exact ⟨by decide, h1, List.mem_singleton.mpr rfl,
    c5_duration_ge_sampleRunTime (Config.mk 50 5000 10) 1 _ _ _ (by decide) h1
      (List.mem_singleton.mpr rfl)⟩

/-! ### C10: recorded samples always report at least one hit -/

/-- C10: every sample the sampling engine records has `hits >= 1`: the hit
counter is incremented after each completed unit-function call, and a sample
is only pushed after at least one increment. -/
theorem c10_hits_positive (srt : JsNum) (n : ℕ) (outers : List OuterEnv)
    (rec : List Sample) (s : Sample)
    (hph : (samplePhase srt n outers).1 = some (.ok rec))
    (hs : s ∈ rec) :
    1 ≤ s.hits := by
  obtain ⟨o, ho⟩ := samplePhase_mem_closed srt n outers rec hph s hs
  exact windowLoop_closed_hits _ o.start o.steps 0 s (by simpa [runWindow] using ho)

/-- C10 witness: one window closing after a single call. -/
theorem c10_hits_witness :
    (samplePhase (.num 500) 1 [⟨false, 0, [⟨false, none, 500⟩]⟩]).1 =
      some (.ok [⟨1, 500⟩]) ∧
    (⟨1, 500⟩ : Sample) ∈ [(⟨1, 500⟩ : Sample)] ∧
    1 ≤ (⟨1, 500⟩ : Sample).hits := by
  have h1 : (samplePhase (.num 500) 1 [⟨false, 0, [⟨false, none, 500⟩]⟩]).1 =
      some (.ok [⟨1, 500⟩]) := by
    norm_num [samplePhase, runWindow, windowLoop, jsAdd, jsLe]
  exact ⟨h1, List.mem_singleton.mpr rfl,
    c10_hits_positive (.num 500) 1 _ _ _ h1 (List.mem_singleton.mpr rfl)⟩

/-! ### Aggregation lemmas -/

@[simp]
theorem jsMulR_num (a b : ℝ) : jsMulR (.num a) (.num b) = .num (a * b) := rfl

/-- The hit-sum `reduce` of `index.js:218` computes the rational sum. -/
theorem foldl_jsAdd_hits (l : List Sample) (a : ℚ) :
    l.foldl (fun s v => jsAdd s (.num (v.hits : ℚ))) (.num a) =
      .num (a + (l.map fun v => (v.hits : ℚ)).sum) := by
  induction l generalizing a with
  | nil => simp
  | cons x xs ih => simp [ih, add_assoc]

/-- The squared-deviation `reduce` of `index.js:219-223` computes the
rational sum. -/
theorem foldl_jsAdd_num_map {α : Type} (f : α → ℚ) (l : List α) (a : ℚ) :
    ((l.map fun v => JsNum.num (f v)).foldl jsAdd (.num a)) =
      .num (a + (l.map f).sum) := by
  induction l generalizing a with
  | nil => simp
  | cons x xs ih => simp [ih, add_assoc]

/-! ### C9: aggregation of an empty sample list is NaN, not a crash -/

/-- C9: a unit reaching aggregation with zero recorded samples produces
defined values: `runs = 0` and both `avg` and `stdDev` are the not-a-number
value produced by the unguarded `0 / 0`; the aggregation is a total function
and raises nothing. -/
theorem c9_empty_aggregation_nan (srt : JsNum) :
    (totalsOf srt []).runs = 0 ∧
    (totalsOf srt []).avg = .nan ∧
    (totalsOf srt []).stdDev = .nan := by
  refine ⟨rfl, ?_, ?_⟩
  · simp [totalsOf, jsDiv]
  · simp [totalsOf, jsDiv, jsSqrt]

/-- C9 witness: the empty sample list at a concrete `sampleRunTime`. -/
theorem c9_empty_aggregation_witness :
    (totalsOf (.num 500) []).runs = 0 ∧
    (totalsOf (.num 500) []).avg = .nan ∧
    (totalsOf (.num 500) []).stdDev = .nan :=
  c9_empty_aggregation_nan (.num 500)

/-! ### C6: aggregation formulas on a non-empty sample list -/

/-- C6: for a non-empty sample list and a finite nonzero `sampleRunTime`,
the aggregated totals are: `runs` = the number of (non-warmup) samples,
`avg` = arithmetic mean of `hits` scaled by `1000 / sampleRunTime`, and
`stdDev` = the population standard deviation of `hits` (summed squared
deviations divided by `runs`, not `runs - 1`) scaled by the same factor. -/
theorem c6_aggregation (srt : ℚ) (samples : List Sample)
    (h1 : samples ≠ []) (h2 : srt ≠ 0) :
    totalsOf (.num srt) samples =
      { runs := samples.length,
        avg := .num (meanHits samples * (1000 / srt)),
        stdDev := .num (Real.sqrt ((popVarHits samples : ℚ) : ℝ) *
          (((1000 : ℚ) / srt : ℚ) : ℝ)) } := by
  have hlen : ((samples.length : ℚ)) ≠ 0 := by
    have : samples.length ≠ 0 := fun hh => h1 (List.length_eq_zero.mp hh)
    exact_mod_cast this
  have havg : jsDiv (samples.foldl (fun s v => jsAdd s (.num (v.hits : ℚ))) (.num 0))
      (.num (samples.length : ℚ)) = .num (meanHits samples) := by
    rw [foldl_jsAdd_hits, jsDiv_num _ hlen]
    simp [meanHits]
  have hmap : (samples.map fun v =>
        jsPow2 (jsSub (.num (v.hits : ℚ)) (.num (meanHits samples)))) =
      samples.map fun v => JsNum.num (((v.hits : ℚ) - meanHits samples) ^ 2) := by
    refine List.map_congr_left fun v _ => ?_
    simp [jsPow2, jsSub, jsNeg]
    ring_nf
  have hvar : jsDiv ((samples.map fun v =>
        jsPow2 (jsSub (.num (v.hits : ℚ)) (.num (meanHits samples)))).foldl jsAdd (.num 0))
      (.num (samples.length : ℚ)) = .num (popVarHits samples) := by
    rw [hmap, foldl_jsAdd_num_map, jsDiv_num _ hlen]
    simp [popVarHits]
  have hvar_nonneg : ¬ (popVarHits samples < 0) := by
    refine not_lt.mpr (div_nonneg (List.sum_nonneg ?_) (by positivity))
    intro x hx
    obtain ⟨v, -, rfl⟩ := List.mem_map.mp hx
    positivity
  have hrate : jsDiv (.num 1000) (.num srt) = .num (1000 / srt) := jsDiv_num _ h2
  simp only [totalsOf, havg, hvar, hrate, jsSqrt, hvar_nonneg, if_false, JsNum.toR,
    jsMul_num, jsMulR_num]

/-- C6 witness: two samples with 3 and 5 hits over a 200ms window. -/
theorem c6_aggregation_witness :
    ([⟨3, 200⟩, ⟨5, 200⟩] : List Sample) ≠ [] ∧ (200 : ℚ) ≠ 0 ∧
    totalsOf (.num 200) [⟨3, 200⟩, ⟨5, 200⟩] =
      { runs := ([⟨3, 200⟩, ⟨5, 200⟩] : List Sample).length,
        avg := .num (meanHits [⟨3, 200⟩, ⟨5, 200⟩] * (1000 / 200)),
        stdDev := .num (Real.sqrt ((popVarHits [⟨3, 200⟩, ⟨5, 200⟩] : ℚ) : ℝ) *
          (((1000 : ℚ) / 200 : ℚ) : ℝ)) } :=
  ⟨by decide, by norm_num, c6_aggregation 200 [⟨3, 200⟩, ⟨5, 200⟩] (by decide) (by norm_num)⟩

/-! ### C4: sample counts with warmup -/

/-- Without abort observations a window can only close or stay incomplete. -/
theorem windowLoop_no_abort (e : JsNum) (st : ℚ) :
    ∀ (steps : List WinStep) (h : ℕ),
      (∀ x ∈ steps, x.ab = false) →
      windowLoop e st h steps ≠ .abortedEarly := by
  intro steps
  induction steps with
  | nil => intro h _ hcon; simp [windowLoop] at hcon
  | cons step rest ih =>
      intro h hab hcon
      have h0 : step.ab = false := hab step (List.mem_cons_self _ _)
      rw [windowLoop, h0] at hcon
      simp only [Bool.false_eq_true, if_false] at hcon
      rcases herr : step.unitErr with - | e'
      · rw [herr] at hcon
        by_cases hle : jsLe e (.num step.now) = true
        · simp [hle] at hcon
        · rw [if_neg hle] at hcon
          exact ih (h + 1) (fun x hx => hab x (List.mem_cons_of_mem _ hx)) hcon
      · rw [herr] at hcon
        simp at hcon

/-- A successful sampling phase with no abort observation records exactly one
sample per outer-loop iteration. -/
theorem samplePhase_length_no_abort (srt : JsNum) :
    ∀ (n : ℕ) (outers : List OuterEnv) (rec : List Sample),
      NoAbortOuters outers →
      (samplePhase srt n outers).1 = some (.ok rec) →
      rec.length = n := by
  intro n
  induction n with
  | zero =>
      intro outers rec _ h
      simp [samplePhase] at h
      subst h
      simp
  | succ n ih =>
      intro outers rec hna h
      match outers with
      | [] => simp [samplePhase] at h
      | o :: os =>
          have hc : o.check = false := (hna o (List.mem_cons_self _ _)).1
          have hsteps : ∀ x ∈ o.steps, x.ab = false := (hna o (List.mem_cons_self _ _)).2
          have hna' : NoAbortOuters os := fun o' ho' => hna o' (List.mem_cons_of_mem _ ho')
          rcases hw : runWindow srt o.start o.steps with s' | - | e | -
          · rw [samplePhase] at h
            simp only [hc, Bool.false_eq_true, if_false, hw] at h
            rcases hrec : (samplePhase srt n os).1 with - | r
            · rw [hrec] at h; simp at h
            · rw [hrec] at h
              rcases r with e | rec'
              · simp at h
              · simp at h
                rw [← h]
                simp [ih os rec' hna' hrec]
          · exact absurd hw (windowLoop_no_abort _ _ o.steps 0 hsteps)
          · rw [samplePhase] at h
            simp [hc, hw] at h
          · rw [samplePhase] at h
            simp [hc, hw] at h

/-- C4 counterexample: the claim says that for every configuration with
`runsPerUnit = R` and `warmupTime > 0` a completed, uncancelled unit reports
exactly `R` samples.  With `R = -1` (and `maxUnitTime = 1000`) the clamp at
`index.js:150` makes the engine run `max(-1,1) + 1 = 2` windows, the negative
`sampleRunTime = -1000` closes each window after a single call, and after the
warmup shift the completed unit reports `1` sample, not `R = -1`. -/
theorem c4_sample_count_counterexample :
    NoAbortOuters [⟨false, 0, [⟨false, none, 0⟩]⟩, ⟨false, 0, [⟨false, none, 0⟩]⟩] ∧
    0 < (Config.mk 10 1000 (-1)).warmupTime ∧
    (samplePhase (sampleRunTime (Config.mk 10 1000 (-1)))
        (actualRunCount (Config.mk 10 1000 (-1)))
        [⟨false, 0, [⟨false, none, 0⟩]⟩, ⟨false, 0, [⟨false, none, 0⟩]⟩]).1 =
      some (.ok [⟨1, 0⟩, ⟨1, 0⟩]) ∧
    ((shiftWarmup (hasWarmupRun (Config.mk 10 1000 (-1))) [⟨1, 0⟩, ⟨1, 0⟩]).2.length : ℤ) ≠
      (Config.mk 10 1000 (-1)).runsPerUnit := by
  refine ⟨by decide, by norm_num, ?_, ?_⟩
  · norm_num [samplePhase, runWindow, windowLoop, sampleRunTime, jsDiv,
      actualRunCount, runsPerUnitClamped, hasWarmupRun, jsAdd, jsLe]
  · decide

/-- C4 (amended): for every configuration with `runsPerUnit = R >= 1` (the
clamp at `index.js:150` makes smaller settings behave like their clamped
value) and `warmupTime > 0`, a unit whose run completes with no cancellation
reports exactly `R` samples, and the first chronologically recorded sample is
removed from that list and stored separately as the warmup sample. -/
theorem c4_sample_count_amended (cfg : Config) (u : UnitDesc) (env : UnitEnv)
    (res : UnitResult)
    (h1 : 1 ≤ cfg.runsPerUnit) (h2 : 0 < cfg.warmupTime)
    (hna : NoAbortOuters env.outers)
    (h : (runUnit cfg u env).1 = some (.ok res)) :
    (res.samples.length : ℤ) = cfg.runsPerUnit ∧
    ∃ rec, (samplePhase (sampleRunTime cfg) (actualRunCount cfg) env.outers).1 =
        some (.ok rec) ∧
      res.warmup = rec.head? ∧ res.samples = rec.tail := by
  rw [runUnit] at h
  by_cases hpre : env.preCheck
  · simp [hpre] at h
  · simp only [hpre, Bool.false_eq_true, if_false] at h
    rcases hprep : prepThrow u env with - | e
    · rw [hprep] at h
      rcases hprobe : env.probeErr with - | e
      · rw [hprobe] at h
        rcases hph : (samplePhase (sampleRunTime cfg) (actualRunCount cfg) env.outers).1
          with - | r
        · rw [hph] at h; simp at h
        · rw [hph] at h
          rcases r with e | rec
          · simp at h
          · simp only [] at h
            rcases htd : tdThrow u env with - | e
            · rw [htd] at h
              by_cases hpost : env.postCheck
              · simp [hpost] at h
              · simp only [hpost, Bool.false_eq_true, if_false, Option.some.injEq] at h
                have hres := h
                have hrl : rec.length = actualRunCount cfg :=
                  samplePhase_length_no_abort _ _ _ _ hna hph
                have hwarm : hasWarmupRun cfg = true := by
                  simp [hasWarmupRun, h2]
                have hcount : actualRunCount cfg = cfg.runsPerUnit.toNat + 1 := by
                  simp [actualRunCount, hwarm, runsPerUnitClamped, max_eq_left h1]
                have hrecne : rec ≠ [] := by
                  intro hh
                  rw [hh] at hrl
                  simp [hcount] at hrl
                have hshift : shiftWarmup (hasWarmupRun cfg) rec = (rec.head?, rec.tail) := by
                  simp [shiftWarmup, hwarm, hrecne]
                injection hres with hres'
                subst hres'
                have hlen2 : rec.tail.length = cfg.runsPerUnit.toNat := by
                  rw [List.length_tail, hrl, hcount]
                  simp
                refine ⟨?_, rec, rfl, ?_, ?_⟩
                · simp only [hshift]
                  rw [hlen2]
                  exact Int.toNat_of_nonneg (by omega)
                · simp [hshift]
                · simp [hshift]
            · rw [htd] at h; simp at h
      · rw [hprobe] at h; simp at h
    · rw [hprep] at h; simp at h

/-- Success-path characterization of `runUnit`: with both checkpoints
observed `false`, no caller-supplied exception and a completed sampling
phase, the unit fulfills with the shifted samples and their aggregate. -/
theorem runUnit_clean (cfg : Config) (u : UnitDesc) (env : UnitEnv) (rec : List Sample)
    (hpre : env.preCheck = false) (hprep : prepThrow u env = none)
    (hprobe : env.probeErr = none)
    (hph : (samplePhase (sampleRunTime cfg) (actualRunCount cfg) env.outers).1 =
      some (.ok rec))
    (htd : tdThrow u env = none) (hpost : env.postCheck = false) :
    (runUnit cfg u env).1 = some (.ok
      { name := u.name,
        totals := totalsOf (sampleRunTime cfg) (shiftWarmup (hasWarmupRun cfg) rec).2,
        samples := (shiftWarmup (hasWarmupRun cfg) rec).2,
        warmup := (shiftWarmup (hasWarmupRun cfg) rec).1 }) := by
  simp only [runUnit, hpre, Bool.false_eq_true, if_false, hprep, hprobe, hph, htd, hpost]

/-- C4 witness: `maxUnitTime = 1000`, `runsPerUnit = 1`, `warmupTime = 50`;
two windows complete (one warmup plus one regular), the completed unit
reports exactly 1 sample, and the warmup slot holds the chronologically
first recorded sample. -/
theorem c4_sample_count_witness :
    (1 : ℤ) ≤ (Config.mk 50 1000 1).runsPerUnit ∧
    (0 : ℚ) < (Config.mk 50 1000 1).warmupTime ∧
    NoAbortOuters [⟨false, 0, [⟨false, none, 1000⟩]⟩, ⟨false, 1000, [⟨false, none, 2000⟩]⟩] ∧
    (runUnit (Config.mk 50 1000 1) (UnitDesc.mk "u" none (some 0) none)
        (UnitEnv.mk false none none
          [⟨false, 0, [⟨false, none, 1000⟩]⟩, ⟨false, 1000, [⟨false, none, 2000⟩]⟩]
          none false)).1 =
      some (.ok (UnitResult.mk "u" (Totals.mk 1 (.num 1) (.num 0))
        [⟨1, 1000⟩] (some ⟨1, 1000⟩))) ∧
    (((UnitResult.mk "u" (Totals.mk 1 (.num 1) (.num 0))
        [⟨1, 1000⟩] (some ⟨1, 1000⟩)).samples.length : ℤ) = (Config.mk 50 1000 1).runsPerUnit ∧
      ∃ rec, (samplePhase (sampleRunTime (Config.mk 50 1000 1))
          (actualRunCount (Config.mk 50 1000 1))
          [⟨false, 0, [⟨false, none, 1000⟩]⟩, ⟨false, 1000, [⟨false, none, 2000⟩]⟩]).1 =
          some (.ok rec) ∧
        (UnitResult.mk "u" (Totals.mk 1 (.num 1) (.num 0))
          [⟨1, 1000⟩] (some ⟨1, 1000⟩)).warmup = rec.head? ∧
        (UnitResult.mk "u" (Totals.mk 1 (.num 1) (.num 0))
          [⟨1, 1000⟩] (some ⟨1, 1000⟩)).samples = rec.tail) := by
  have hph : (samplePhase (sampleRunTime (Config.mk 50 1000 1))
      (actualRunCount (Config.mk 50 1000 1))
      [⟨false, 0, [⟨false, none, 1000⟩]⟩, ⟨false, 1000, [⟨false, none, 2000⟩]⟩]).1 =
      some (.ok [⟨1, 1000⟩, ⟨1, 1000⟩]) := by
    norm_num [samplePhase, runWindow, windowLoop, sampleRunTime, jsDiv,
      actualRunCount, runsPerUnitClamped, hasWarmupRun, jsAdd, jsLe]
  have hsw : shiftWarmup (hasWarmupRun (Config.mk 50 1000 1)) [⟨1, 1000⟩, ⟨1, 1000⟩] =
      (some ⟨1, 1000⟩, [⟨1, 1000⟩]) := by
    simp [shiftWarmup, hasWarmupRun]
  have htot : totalsOf (sampleRunTime (Config.mk 50 1000 1)) [(⟨1, 1000⟩ : Sample)] =
      Totals.mk 1 (.num 1) (.num 0) := by
    norm_num [totalsOf, sampleRunTime, jsDiv, jsPow2, jsSub, jsNeg, jsSqrt, JsNum.toR]
  have hrun : (runUnit (Config.mk 50 1000 1) (UnitDesc.mk "u" none (some 0) none)
      (UnitEnv.mk false none none
        [⟨false, 0, [⟨false, none, 1000⟩]⟩, ⟨false, 1000, [⟨false, none, 2000⟩]⟩]
        none false)).1 =
      some (.ok (UnitResult.mk "u" (Totals.mk 1 (.num 1) (.num 0))
        [⟨1, 1000⟩] (some ⟨1, 1000⟩))) := by
    rw [runUnit_clean (Config.mk 50 1000 1) (UnitDesc.mk "u" none (some 0) none)
      (UnitEnv.mk false none none
        [⟨false, 0, [⟨false, none, 1000⟩]⟩, ⟨false, 1000, [⟨false, none, 2000⟩]⟩]
        none false)
      [⟨1, 1000⟩, ⟨1, 1000⟩] rfl rfl rfl hph rfl rfl, hsw, htot]
  exact ⟨by decide, by norm_num, by decide, hrun,
    c4_sample_count_amended _ _ _ _ (by decide) (by norm_num) (by decide) hrun⟩

/-! ### C3: the final cancellation check versus aggregation -/

/-- The sampling phase's trace consists of checkpoint observations only. -/
theorem samplePhase_trace_events (srt : JsNum) :
    ∀ (n : ℕ) (outers : List OuterEnv) (ev : Ev),
      ev ∈ (samplePhase srt n outers).2 → ∃ b, ev = .checkpoint b := by
  intro n
  induction n with
  | zero => intro outers ev hev; simp [samplePhase] at hev
  | succ n ih =>
      intro outers ev hev
      match outers with
      | [] => simp [samplePhase] at hev
      | o :: os =>
          by_cases hc : o.check
          · simp [samplePhase, hc] at hev
            exact ⟨true, hev⟩
          · rw [samplePhase] at hev
            simp only [hc, Bool.false_eq_true, if_false] at hev
            rcases hw : runWindow srt o.start o.steps with s' | - | e | -
            · rw [hw] at hev
              simp only [List.mem_cons] at hev
              rcases hev with hev | hev
              · exact ⟨false, hev⟩
              · exact ih os ev hev
            · rw [hw] at hev
              simp only [List.mem_cons] at hev
              rcases hev with hev | hev
              · exact ⟨false, hev⟩
              · exact ih os ev hev
            · rw [hw] at hev
              simp at hev
              exact ⟨false, hev⟩
            · rw [hw] at hev
              simp at hev
              exact ⟨false, hev⟩

/-- A sampling phase that returns a sample list never observed the abort
flag `true` at an outer-loop checkpoint. -/
theorem samplePhase_ok_no_true (srt : JsNum) :
    ∀ (n : ℕ) (outers : List OuterEnv) (rec : List Sample),
      (samplePhase srt n outers).1 = some (.ok rec) →
      Ev.checkpoint true ∉ (samplePhase srt n outers).2 := by
  intro n
  induction n with
  | zero => intro outers rec _ hev; simp [samplePhase] at hev
  | succ n ih =>
      intro outers rec h hev
      match outers with
      | [] => simp [samplePhase] at h
      | o :: os =>
          by_cases hc : o.check
          · simp [samplePhase, hc] at h
          · rw [samplePhase] at h hev
            simp only [hc, Bool.false_eq_true, if_false] at h hev
            rcases hw : runWindow srt o.start o.steps with s' | - | e | -
            · rw [hw] at h hev
              simp only [List.mem_cons] at hev
              rcases hev with hev | hev
              · simp at hev
              · rcases hrec : (samplePhase srt n os).1 with - | r
                · rw [hrec] at h; simp at h
                · rw [hrec] at h
                  rcases r with e | rec'
                  · simp at h
                  · exact ih os rec' hrec hev
            · rw [hw] at h hev
              simp only [List.mem_cons] at hev
              rcases hev with hev | hev
              · simp at hev
              · exact ih os rec h hev
            · rw [hw] at h; simp at h
            · rw [hw] at h; simp at h

/-- Abort-surfacing path of `runUnit`: when sampling and teardown complete
but the post-teardown check (`index.js:225`) observes `true`, the unit
rejects with the abort error — after the aggregate was computed
(`index.js:217-223`), and before the result is appended or reported. -/
theorem runUnit_postAbort (cfg : Config) (u : UnitDesc) (env : UnitEnv) (rec : List Sample)
    (hpre : env.preCheck = false) (hprep : prepThrow u env = none)
    (hprobe : env.probeErr = none)
    (hph : (samplePhase (sampleRunTime cfg) (actualRunCount cfg) env.outers).1 =
      some (.ok rec))
    (htd : tdThrow u env = none) (hpost : env.postCheck = true) :
    runUnit cfg u env =
      (some (.error abortThrow),
        .checkpoint false ::
          (samplePhase (sampleRunTime cfg) (actualRunCount cfg) env.outers).2 ++
          [.aggregated, .checkpoint true]) := by
  simp only [runUnit, hpre, Bool.false_eq_true, if_false, hprep, hprobe, hph, htd, hpost,
    if_true]

/-- C3 counterexample: the claim says the cancellation flag is checked
before the unit's samples are aggregated, so that a mid-sampling abort makes
`run()` reject "without computing its aggregate".  In the code the
aggregation (`index.js:217-223`) precedes the final check (`index.js:225`):
at this concrete environment (abort observed only at the post-teardown
check) the unit rejects with the abort error, yet the `aggregated` milestone
is in the trace — strictly before the `true` checkpoint observation. -/
theorem c3_check_counterexample :
    (runUnit (Config.mk 50 1000 1) (UnitDesc.mk "u" none (some 0) none)
        (UnitEnv.mk false none none
          [⟨false, 0, [⟨false, none, 1000⟩]⟩, ⟨false, 1000, [⟨false, none, 2000⟩]⟩]
          none true)).1 = some (.error abortThrow) ∧
    (runUnit (Config.mk 50 1000 1) (UnitDesc.mk "u" none (some 0) none)
        (UnitEnv.mk false none none
          [⟨false, 0, [⟨false, none, 1000⟩]⟩, ⟨false, 1000, [⟨false, none, 2000⟩]⟩]
          none true)).2 =
      [.checkpoint false, .checkpoint false, .checkpoint false,
        .aggregated, .checkpoint true] := by
  have hph : (samplePhase (sampleRunTime (Config.mk 50 1000 1))
      (actualRunCount (Config.mk 50 1000 1))
      [⟨false, 0, [⟨false, none, 1000⟩]⟩, ⟨false, 1000, [⟨false, none, 2000⟩]⟩]).1 =
      some (.ok [⟨1, 1000⟩, ⟨1, 1000⟩]) := by
    norm_num [samplePhase, runWindow, windowLoop, sampleRunTime, jsDiv,
      actualRunCount, runsPerUnitClamped, hasWarmupRun, jsAdd, jsLe]
  have htr : (samplePhase (sampleRunTime (Config.mk 50 1000 1))
      (actualRunCount (Config.mk 50 1000 1))
      [⟨false, 0, [⟨false, none, 1000⟩]⟩, ⟨false, 1000, [⟨false, none, 2000⟩]⟩]).2 =
      [.checkpoint false, .checkpoint false] := by
    norm_num [samplePhase, runWindow, windowLoop, sampleRunTime, jsDiv,
      actualRunCount, runsPerUnitClamped, hasWarmupRun, jsAdd, jsLe]
  have h := runUnit_postAbort (Config.mk 50 1000 1) (UnitDesc.mk "u" none (some 0) none)
    (UnitEnv.mk false none none
      [⟨false, 0, [⟨false, none, 1000⟩]⟩, ⟨false, 1000, [⟨false, none, 2000⟩]⟩]
      none true)
    [⟨1, 1000⟩, ⟨1, 1000⟩] rfl rfl rfl hph rfl rfl
  rw [h, htr]
  exact ⟨rfl, rfl⟩

/-- C3 (amended): the final cancellation check of a unit happens after
teardown and after the aggregate is computed, but before the unit's result
is constructed, appended to the output list, or reported through `onCycle`;
so a mid-sampling abort observed at that check makes the unit reject with
the abort error, with the aggregate already computed but never published. -/
theorem c3_check_amended (cfg : Config) (u : UnitDesc) (env : UnitEnv) (rec : List Sample)
    (hpre : env.preCheck = false) (hprep : prepThrow u env = none)
    (hprobe : env.probeErr = none)
    (hph : (samplePhase (sampleRunTime cfg) (actualRunCount cfg) env.outers).1 =
      some (.ok rec))
    (htd : tdThrow u env = none) (hpost : env.postCheck = true) :
    (runUnit cfg u env).1 = some (.error abortThrow) ∧
    Ev.aggregated ∈ (runUnit cfg u env).2 ∧
    Ev.cycled ∉ (runUnit cfg u env).2 ∧
    Ev.appended ∉ (runUnit cfg u env).2 := by
  rw [runUnit_postAbort cfg u env rec hpre hprep hprobe hph htd hpost]
  refine ⟨rfl, by simp, ?_, ?_⟩
  · intro hmem
    simp only [List.mem_cons, List.mem_append] at hmem
    rcases hmem with (h | h) | h
    · exact Ev.noConfusion h
    · obtain ⟨b, hb⟩ := samplePhase_trace_events _ _ _ _ h
      exact Ev.noConfusion hb
    · simp at h
  · intro hmem
    simp only [List.mem_cons, List.mem_append] at hmem
    rcases hmem with (h | h) | h
    · exact Ev.noConfusion h
    · obtain ⟨b, hb⟩ := samplePhase_trace_events _ _ _ _ h
      exact Ev.noConfusion hb
    · simp at h

/-- C3 witness: the abort flag set during sampling of the single unit and
observed at the post-teardown check. -/
theorem c3_check_witness :
    (UnitEnv.mk false none none [⟨false, 0, [⟨false, none, 1000⟩]⟩] none true).preCheck
        = false ∧
    (UnitEnv.mk false none none [⟨false, 0, [⟨false, none, 1000⟩]⟩] none true).postCheck
        = true ∧
    (runUnit (Config.mk 0 1000 1) (UnitDesc.mk "u" none (some 0) none)
        (UnitEnv.mk false none none [⟨false, 0, [⟨false, none, 1000⟩]⟩] none true)).1 =
      some (.error abortThrow) ∧
    Ev.aggregated ∈ (runUnit (Config.mk 0 1000 1) (UnitDesc.mk "u" none (some 0) none)
        (UnitEnv.mk false none none [⟨false, 0, [⟨false, none, 1000⟩]⟩] none true)).2 ∧
    Ev.cycled ∉ (runUnit (Config.mk 0 1000 1) (UnitDesc.mk "u" none (some 0) none)
        (UnitEnv.mk false none none [⟨false, 0, [⟨false, none, 1000⟩]⟩] none true)).2 := by
  have hph : (samplePhase (sampleRunTime (Config.mk 0 1000 1))
      (actualRunCount (Config.mk 0 1000 1))
      [⟨false, 0, [⟨false, none, 1000⟩]⟩]).1 = some (.ok [⟨1, 1000⟩]) := by
    norm_num [samplePhase, runWindow, windowLoop, sampleRunTime, jsDiv,
      actualRunCount, runsPerUnitClamped, hasWarmupRun, jsAdd, jsLe]
  have h := c3_check_amended (Config.mk 0 1000 1) (UnitDesc.mk "u" none (some 0) none)
    (UnitEnv.mk false none none [⟨false, 0, [⟨false, none, 1000⟩]⟩] none true)
    [⟨1, 1000⟩] rfl rfl rfl hph rfl rfl
  exact ⟨rfl, rfl, h.1, h.2.1, h.2.2.1⟩

/-! ### C7: the fulfilled list equals the `onCycle` argument sequence -/

/-- C7: whenever `run()` fulfills, the fulfilled list of unit results is
element-for-element, in order, the sequence of arguments that was passed to
the `onCycle` callback during the run. -/
theorem c7_results_eq_cycles (cfg : Config) :
    ∀ (us : List UnitDesc) (es : List UnitEnv) (l : List UnitResult),
      (runBench cfg us es).1 = some (.ok l) →
      (runBench cfg us es).2.1 = l := by
  intro us
  induction us with
  | nil =>
      intro es l h
      simp [runBench] at h
      simp [runBench, h]
  | cons u us ih =>
      intro es l h
      match es with
      | [] => simp [runBench] at h
      | e :: es =>
          rcases hru : runUnit cfg u e with ⟨ro, tr⟩
          rcases ro with - | r
          · rw [runBench, hru] at h; simp at h
          · rcases r with err | res
            · rw [runBench, hru] at h; simp at h
            · rcases hrb : runBench cfg us es with ⟨ro2, cyc, tr2⟩
              rcases ro2 with - | r2
              · rw [runBench, hru, hrb] at h; simp at h
              · rcases r2 with err2 | rest
                · rw [runBench, hru, hrb] at h; simp at h
                · rw [runBench, hru, hrb] at h
                  simp only [Option.some.injEq] at h
                  injection h with h'
                  rw [runBench, hru, hrb]
                  have hcyc : cyc = rest := by
                    have h2 := ih es rest (by rw [hrb])
                    rwa [hrb] at h2
                  simp [← h', hcyc]

/-- C7 witness: a one-unit run that fulfills; the fulfilled list and the
`onCycle` sequence agree. -/
theorem c7_results_witness :
    (runBench (Config.mk 0 1000 1) [UnitDesc.mk "u" none (some 0) none]
        [UnitEnv.mk false none none [⟨false, 0, [⟨false, none, 1000⟩]⟩] none false]).1 =
      some (.ok [UnitResult.mk "u" (Totals.mk 1 (.num 1) (.num 0)) [⟨1, 1000⟩] none]) ∧
    (runBench (Config.mk 0 1000 1) [UnitDesc.mk "u" none (some 0) none]
        [UnitEnv.mk false none none [⟨false, 0, [⟨false, none, 1000⟩]⟩] none false]).2.1 =
      [UnitResult.mk "u" (Totals.mk 1 (.num 1) (.num 0)) [⟨1, 1000⟩] none] := by
  have hph : (samplePhase (sampleRunTime (Config.mk 0 1000 1))
      (actualRunCount (Config.mk 0 1000 1))
      [⟨false, 0, [⟨false, none, 1000⟩]⟩]).1 = some (.ok [⟨1, 1000⟩]) := by
    norm_num [samplePhase, runWindow, windowLoop, sampleRunTime, jsDiv,
      actualRunCount, runsPerUnitClamped, hasWarmupRun, jsAdd, jsLe]
  have hsw : shiftWarmup (hasWarmupRun (Config.mk 0 1000 1)) [⟨1, 1000⟩] =
      (none, [⟨1, 1000⟩]) := by
    simp [shiftWarmup, hasWarmupRun]
  have htot : totalsOf (sampleRunTime (Config.mk 0 1000 1)) [(⟨1, 1000⟩ : Sample)] =
      Totals.mk 1 (.num 1) (.num 0) := by
    norm_num [totalsOf, sampleRunTime, jsDiv, jsPow2, jsSub, jsNeg, jsSqrt, JsNum.toR]
  have hrun : (runUnit (Config.mk 0 1000 1) (UnitDesc.mk "u" none (some 0) none)
      (UnitEnv.mk false none none [⟨false, 0, [⟨false, none, 1000⟩]⟩] none false)).1 =
      some (.ok (UnitResult.mk "u" (Totals.mk 1 (.num 1) (.num 0)) [⟨1, 1000⟩] none)) := by
    rw [runUnit_clean (Config.mk 0 1000 1) (UnitDesc.mk "u" none (some 0) none)
      (UnitEnv.mk false none none [⟨false, 0, [⟨false, none, 1000⟩]⟩] none false)
      [⟨1, 1000⟩] rfl rfl rfl hph rfl rfl, hsw, htot]
  rcases hru : runUnit (Config.mk 0 1000 1) (UnitDesc.mk "u" none (some 0) none)
      (UnitEnv.mk false none none [⟨false, 0, [⟨false, none, 1000⟩]⟩] none false)
    with ⟨ro, tr⟩
  rw [hru] at hrun
  simp only [] at hrun
  have h1 : (runBench (Config.mk 0 1000 1) [UnitDesc.mk "u" none (some 0) none]
      [UnitEnv.mk false none none [⟨false, 0, [⟨false, none, 1000⟩]⟩] none false]).1 =
      some (.ok [UnitResult.mk "u" (Totals.mk 1 (.num 1) (.num 0)) [⟨1, 1000⟩] none]) := by
    rw [runBench, hru, hrun]
    rfl
  exact ⟨h1, c7_results_eq_cycles (Config.mk 0 1000 1) _ _ _ h1⟩

/-! ### C8: the only core-raised error is the AbortError -/

/-- The only core-raised error a sampling phase can produce is the abort
error thrown at the outer-loop checkpoint. -/
theorem samplePhase_core_abort (srt : JsNum) :
    ∀ (n : ℕ) (outers : List OuterEnv) (e : JsError),
      (samplePhase srt n outers).1 = some (.error (.core e)) →
      e = abortError "abort() was called" := by
  intro n
  induction n with
  | zero => intro outers e h; simp [samplePhase] at h
  | succ n ih =>
      intro outers e h
      match outers with
      | [] => simp [samplePhase] at h
      | o :: os =>
          by_cases hc : o.check
          · simp [samplePhase, hc, abortThrow] at h
            exact h.symm
          · rw [samplePhase] at h
            simp only [hc, Bool.false_eq_true, if_false] at h
            rcases hw : runWindow srt o.start o.steps with s' | - | e' | -
            · rw [hw] at h
              rcases hrec : (samplePhase srt n os).1 with - | r
              · rw [hrec] at h; simp at h
              · rw [hrec] at h
                rcases r with err | rec'
                · simp [exceptMap_error] at h
                  exact ih os e (by rw [hrec, h])
                · simp at h
            · rw [hw] at h
              exact ih os e h
            · rw [hw] at h; simp at h
            · rw [hw] at h; simp at h

/-- The only core-raised error `runUnit` can produce is the abort error. -/
theorem runUnit_core_abort (cfg : Config) (u : UnitDesc) (env : UnitEnv) (e : JsError)
    (h : (runUnit cfg u env).1 = some (.error (.core e))) :
    e = abortError "abort() was called" := by
  rw [runUnit] at h
  by_cases hpre : env.preCheck
  · simp [hpre, abortThrow] at h
    exact h.symm
  · simp only [hpre, Bool.false_eq_true, if_false] at h
    rcases hprep : prepThrow u env with - | e'
    · rw [hprep] at h
      rcases hprobe : env.probeErr with - | e'
      · rw [hprobe] at h
        rcases hph : (samplePhase (sampleRunTime cfg) (actualRunCount cfg) env.outers).1
          with - | r
        · rw [hph] at h; simp at h
        · rw [hph] at h
          rcases r with err | rec
          · simp only [Option.some.injEq] at h
            injection h with h'
            rcases err with e2 | e2
            · injection h' with h''
              exact samplePhase_core_abort _ _ _ _ (by rw [hph, h''])
            · exact RunError.noConfusion h'
          · simp only [] at h
            rcases htd : tdThrow u env with - | e2
            · rw [htd] at h
              by_cases hpost : env.postCheck
              · simp [hpost, abortThrow] at h
                exact h.symm
              · simp [hpost] at h
            · rw [htd] at h; simp at h
      · rw [hprobe] at h; simp at h
    · rw [hprep] at h; simp at h

/-- Inversion of a fulfilled `runUnit`: every checkpoint observed `false`,
no caller-supplied exception, and sampling completed. -/
theorem runUnit_ok_inversion (cfg : Config) (u : UnitDesc) (env : UnitEnv)
    (res : UnitResult) (h : (runUnit cfg u env).1 = some (.ok res)) :
    env.preCheck = false ∧ prepThrow u env = none ∧ env.probeErr = none ∧
    tdThrow u env = none ∧ env.postCheck = false ∧
    ∃ rec, (samplePhase (sampleRunTime cfg) (actualRunCount cfg) env.outers).1 =
      some (.ok rec) := by
  rw [runUnit] at h
  by_cases hpre : env.preCheck
  · simp [hpre] at h
  · simp only [hpre, Bool.false_eq_true, if_false] at h
    rcases hprep : prepThrow u env with - | e'
    · rw [hprep] at h
      rcases hprobe : env.probeErr with - | e'
      · rw [hprobe] at h
        rcases hph : (samplePhase (sampleRunTime cfg) (actualRunCount cfg) env.outers).1
          with - | r
        · rw [hph] at h; simp at h
        · rw [hph] at h
          rcases r with err | rec
          · simp at h
          · simp only [] at h
            rcases htd : tdThrow u env with - | e2
            · rw [htd] at h
              by_cases hpost : env.postCheck
              · simp [hpost] at h
              · exact ⟨eq_false_of_ne_true hpre, rfl, rfl, rfl,
                  eq_false_of_ne_true hpost, rec, rfl⟩
            · rw [htd] at h; simp at h
      · rw [hprobe] at h; simp at h
    · rw [hprep] at h; simp at h

/-- Trace of the success path of `runUnit`. -/
theorem runUnit_clean_trace (cfg : Config) (u : UnitDesc) (env : UnitEnv)
    (rec : List Sample)
    (hpre : env.preCheck = false) (hprep : prepThrow u env = none)
    (hprobe : env.probeErr = none)
    (hph : (samplePhase (sampleRunTime cfg) (actualRunCount cfg) env.outers).1 =
      some (.ok rec))
    (htd : tdThrow u env = none) (hpost : env.postCheck = false) :
    (runUnit cfg u env).2 =
      .checkpoint false ::
        (samplePhase (sampleRunTime cfg) (actualRunCount cfg) env.outers).2 ++
        [.aggregated, .checkpoint false, .appended, .cycled] := by
  simp only [runUnit, hpre, Bool.false_eq_true, if_false, hprep, hprobe, hph, htd, hpost]

/-- A unit that fulfills never observed the abort flag `true` at any
checkpoint recorded in its trace. -/
theorem runUnit_ok_no_true (cfg : Config) (u : UnitDesc) (env : UnitEnv) (res : UnitResult)
    (h : (runUnit cfg u env).1 = some (.ok res)) :
    Ev.checkpoint true ∉ (runUnit cfg u env).2 := by
  obtain ⟨h1, h2, h3, h4, h5, rec, h6⟩ := runUnit_ok_inversion cfg u env res h
  rw [runUnit_clean_trace cfg u env rec h1 h2 h3 h6 h4 h5]
  intro hmem
  simp only [List.mem_cons, List.mem_append] at hmem
  rcases hmem with (hx | hx) | hx
  · exact Ev.noConfusion hx fun hb => Bool.noConfusion hb
  · exact samplePhase_ok_no_true _ _ _ _ h6 hx
  · simp at hx

/-- C8: every error `run()` itself raises carries the stable discriminator
`name = 'AbortError'` and the human-readable message `'abort() was called'`
(any other rejection is, by construction of the model, an exception
propagated from a caller-supplied `prepare`/`unit`/`teardown` function); and
a run that fulfills never observed the cancellation flag `true` at a
checkpoint — equivalently, whenever the flag is observed `true` at a
checkpoint, `run()` rejects. -/
theorem c8_abort_error_taxonomy (cfg : Config) :
    ∀ (us : List UnitDesc) (es : List UnitEnv),
      (∀ e, (runBench cfg us es).1 = some (.error (.core e)) →
        e.name = "AbortError" ∧ e.message = "abort() was called") ∧
      (∀ l, (runBench cfg us es).1 = some (.ok l) →
        Ev.checkpoint true ∉ (runBench cfg us es).2.2) := by
  intro us
  induction us with
  | nil =>
      intro es
      constructor
      · intro e h; simp [runBench] at h
      · intro l h hmem; simp [runBench] at hmem
  | cons u us ih =>
      intro es
      match es with
      | [] =>
          constructor
          · intro e h; simp [runBench] at h
          · intro l h; simp [runBench] at h
      | e :: es =>
          rcases hru : runUnit cfg u e with ⟨ro, tr⟩
          constructor
          · intro e2 h
            rcases ro with - | r
            · rw [runBench, hru] at h; simp at h
            · rcases r with err | res
              · rw [runBench, hru] at h
                simp only [Option.some.injEq] at h
                injection h with h'
                rcases err with e3 | e3
                · injection h' with h''
                  have := runUnit_core_abort cfg u e e3 (by rw [hru])
                  rw [h''] at this
                  rw [this]
                  exact ⟨rfl, rfl⟩
                · exact RunError.noConfusion h'
              · rcases hrb : runBench cfg us es with ⟨ro2, cyc, tr2⟩
                rcases ro2 with - | r2
                · rw [runBench, hru, hrb] at h; simp at h
                · rcases r2 with err2 | rest
                  · rw [runBench, hru, hrb] at h
                    simp only [Option.some.injEq] at h
                    injection h with h'
                    have h2 := (ih es).1 e2
                    rw [hrb] at h2
                    exact h2 (by rw [← h'])
                  · rw [runBench, hru, hrb] at h; simp at h
          · intro l h hmem
            rcases ro with - | r
            · rw [runBench, hru] at h; simp at h
            · rcases r with err | res
              · rw [runBench, hru] at h; simp at h
              · rcases hrb : runBench cfg us es with ⟨ro2, cyc, tr2⟩
                rcases ro2 with - | r2
                · rw [runBench, hru, hrb] at h; simp at h
                · rcases r2 with err2 | rest
                  · rw [runBench, hru, hrb] at h; simp at h
                  · rw [runBench, hru, hrb] at hmem
                    simp only [List.mem_append] at hmem
                    rcases hmem with hx | hx
                    · have := runUnit_ok_no_true cfg u e res (by rw [hru])
                      rw [hru] at this
                      exact this hx
                    · have h2 := (ih es).2 rest
                      rw [hrb] at h2
                      exact h2 rfl hx

/-- C8 witness: a run whose first checkpoint observes the abort flag `true`
rejects with a core error named `'AbortError'` carrying the message. -/
theorem c8_abort_error_witness :
    (runBench (Config.mk 50 5000 10) [UnitDesc.mk "u" none (some 0) none]
        [UnitEnv.mk true none none [] none false]).1 =
      some (.error (.core (abortError "abort() was called"))) ∧
    (abortError "abort() was called").name = "AbortError" ∧
    (abortError "abort() was called").message = "abort() was called" := by
  have h1 : (runBench (Config.mk 50 5000 10) [UnitDesc.mk "u" none (some 0) none]
      [UnitEnv.mk true none none [] none false]).1 =
      some (.error (.core (abortError "abort() was called"))) := rfl
  exact ⟨h1,
    (c8_abort_error_taxonomy (Config.mk 50 5000 10)
      [UnitDesc.mk "u" none (some 0) none] [UnitEnv.mk true none none [] none false]).1
      (abortError "abort() was called") h1⟩

end NodeBenchmark
